import Mathlib

/-!
Verification of the competitive-intel-scanner front-end contracts and the
spec-described pipeline.  Pure fragments of the TypeScript sources are
shallowly embedded as Lean functions; components of the backend that are not
present in the sources (the ingestion coordinator, the check-run orchestrator,
the status-change and publish endpoints) are modelled from the specification
and marked as such in their doc comments.
-/

namespace CIS

/-- Status of an analysis card, from `src/frontend/src/types/analysis-card.ts`
(`draft | in_review | approved | archived`). -/
inductive CardStatus
  | draft
  | in_review
  | approved
  | archived
deriving DecidableEq, Repr, Fintype

/-- Status of a briefing, from the briefing types (`draft | in_review |
approved | archived`), kept distinct from `CardStatus` as in the sources. -/
inductive BriefingStatus
  | draft
  | in_review
  | approved
  | archived
deriving DecidableEq, Repr, Fintype

/-- Status of a content output, from `src/unnamed/part_020`
(`draft | generating | in_review | approved | published | failed`). -/
inductive ContentOutputStatus
  | draft
  | generating
  | in_review
  | approved
  | published
  | failed
deriving DecidableEq, Repr, Fintype

/-- Status of a check run, from `src/frontend/src/types/check-run.ts`. -/
inductive CheckRunStatus
  | running
  | completed
  | failed
deriving DecidableEq, Repr, Fintype

/-- Analysis status of a check run, from `src/frontend/src/types/check-run.ts`. -/
inductive AnalysisStatus
  | pending
  | complete
deriving DecidableEq, Repr, Fintype

/-- Source type of a feed, from `src/unnamed/part_020`
(`feed_type: 'rss' | 'web_scrape' | 'twitter'`). -/
inductive FeedType
  | rss
  | web_scrape
  | twitter
deriving DecidableEq, Repr, Fintype

/-- Status targets offered by the card `ApprovalWorkflow` component
(`src/frontend/src/components/cards/ApprovalWorkflow.tsx`): the
"Submit for Review" button is rendered exactly when the status is `draft`;
the "Approve" button exactly when the status is `in_review` and the actor is
an admin (`user?.role === "admin"`); the "Archive" button exactly when the
status is not `archived`. -/
def cardOfferedTargets (status : CardStatus) (isAdmin : Bool) : List CardStatus :=
  (if status = CardStatus.draft then [CardStatus.in_review] else []) ++
  (if status = CardStatus.in_review ∧ isAdmin then [CardStatus.approved] else []) ++
  (if status ≠ CardStatus.archived then [CardStatus.archived] else [])

/-- Status targets offered by `BriefingApprovalWorkflow`
(`src/unnamed/part_001`): the same three buttons under the same conditions as
the card workflow. -/
def briefingOfferedTargets (status : BriefingStatus) (isAdmin : Bool) : List BriefingStatus :=
  (if status = BriefingStatus.draft then [BriefingStatus.in_review] else []) ++
  (if status = BriefingStatus.in_review ∧ isAdmin then [BriefingStatus.approved] else []) ++
  (if status ≠ BriefingStatus.archived then [BriefingStatus.archived] else [])

/-- Modelled from the spec: the card/briefing status-change endpoint is not in
the sources (only the front-end callers are).  The allowed transition set is
`draft → in_review`, `in_review → approved`, and any non-archived status
directly to `archived` (spec section 4.6). -/
def cardTransitionAllowed (src tgt : CardStatus) : Bool :=
  (src = CardStatus.draft ∧ tgt = CardStatus.in_review) ∨
  (src = CardStatus.in_review ∧ tgt = CardStatus.approved) ∨
  (src ≠ CardStatus.archived ∧ tgt = CardStatus.archived)

/-- Modelled from the spec: applying a status change on the server.  A
transition outside the allowed set, or an approval attempted by a non-admin
actor, is rejected with a reason and leaves the status unchanged (spec
sections 4.6 and 7, "state-violation ... rejected synchronously with a clear
reason, no partial mutation"). -/
def cardStatusEndpoint (current tgt : CardStatus) (isAdmin : Bool) :
    CardStatus × Option String :=
  if cardTransitionAllowed current tgt then
    if tgt = CardStatus.approved ∧ ¬ isAdmin then
      (current, some "only admins can approve")
    else
      (tgt, none)
  else
    (current, some "transition not permitted")

end CIS

namespace CIS

/-- C1: for cards and briefings, the only permitted transitions are
draft → in_review, in_review → approved, and any non-archived status →
archived; approval is offered only to admins while submission for review is
not admin-gated; and a direct draft → approved transition is rejected by the
(spec-modelled) status endpoint and leaves the status unchanged. -/
theorem C1_approval_transitions :
    (∀ (s t : CardStatus) (adm : Bool),
        t ∈ cardOfferedTargets s adm ↔
          ((s = CardStatus.draft ∧ t = CardStatus.in_review) ∨
           (s = CardStatus.in_review ∧ t = CardStatus.approved ∧ adm = true) ∨
           (s ≠ CardStatus.archived ∧ t = CardStatus.archived))) ∧
    (∀ (s t : BriefingStatus) (adm : Bool),
        t ∈ briefingOfferedTargets s adm ↔
          ((s = BriefingStatus.draft ∧ t = BriefingStatus.in_review) ∨
           (s = BriefingStatus.in_review ∧ t = BriefingStatus.approved ∧ adm = true) ∨
           (s ≠ BriefingStatus.archived ∧ t = BriefingStatus.archived))) ∧
    (∀ adm : Bool,
        cardStatusEndpoint CardStatus.draft CardStatus.approved adm =
          (CardStatus.draft, some "transition not permitted")) := by
  refine ⟨?_, ?_, ?_⟩ <;> decide

end CIS

namespace CIS

/-- An ingested item.  Fields from `src/frontend/src/types/feed-item.ts`
(`feed_id`/`guid` form the dedup key; title/url kept as representative
payload). -/
structure Item where
  source_id : Nat
  guid : String
  title : String
  url : String
deriving DecidableEq, Repr

/-- The dedup key of an item: `(source_id, guid)`. -/
def itemKey (i : Item) : Nat × String := (i.source_id, i.guid)

/-- Whether the store already holds an item with the given key. -/
def hasKey (store : List Item) (k : Nat × String) : Bool :=
  store.any (fun i => decide (itemKey i = k))

/-- Modelled from the spec: the ingestion insert, which is not in the sources
(only the `FeedItem` type is).  Inserting a candidate whose
`(source_id, guid)` key already exists is a silent no-op, not an error
(spec section 4.3); otherwise the candidate is appended and counted as new. -/
def insertItem (store : List Item) (c : Item) : List Item × Bool :=
  if hasKey store (itemKey c) then (store, false) else (store ++ [c], true)

/-- Modelled from the spec: ingesting one source's candidate sequence —
upsert each candidate keyed by `(source_id, external_id)`, counting only
genuinely new rows (spec section 4.2). -/
def ingestSource : List Item → List Item → List Item × Nat
  | store, [] => (store, 0)
  | store, c :: cs =>
      let r := insertItem store c
      let rest := ingestSource r.1 cs
      (rest.1, (if r.2 then 1 else 0) + rest.2)

/-- Modelled from the spec: one Ingestion Coordinator sweep over the active
sources (each with its feed type and the candidate items its adapter
produced), summing the new-item counts. -/
def coordinatorRun : List Item → List (FeedType × List Item) → List Item × Nat
  | store, [] => (store, 0)
  | store, src :: srcs =>
      let r := ingestSource store src.2
      let rest := coordinatorRun r.1 srcs
      (rest.1, r.2 + rest.2)

/-- No two items of the store share a `(source_id, guid)` key. -/
def uniqueKeys (store : List Item) : Prop :=
  store.Pairwise (fun a b => itemKey a ≠ itemKey b)

theorem hasKey_iff (s : List Item) (k : Nat × String) :
    hasKey s k = true ↔ ∃ i ∈ s, itemKey i = k := by
  simp [hasKey]

theorem insertItem_of_hasKey {s : List Item} {c : Item}
    (h : hasKey s (itemKey c) = true) : insertItem s c = (s, false) := by
  simp [insertItem, h]

theorem insertItem_mono {s : List Item} {c : Item} {k : Nat × String}
    (h : hasKey s k = true) : hasKey (insertItem s c).1 k = true := by
  unfold insertItem
  split
  · exact h
  · simp only [hasKey, List.any_append] at h ⊢
    simp [h]

theorem insertItem_covers (s : List Item) (c : Item) :
    hasKey (insertItem s c).1 (itemKey c) = true := by
  unfold insertItem
  split
  · assumption
  · simp [hasKey, List.any_append]

theorem insertItem_unique {s : List Item} {c : Item} (hu : uniqueKeys s) :
    uniqueKeys (insertItem s c).1 := by
  unfold insertItem
  split
  · exact hu
  · rename_i h
    refine List.pairwise_append.mpr ⟨hu, List.pairwise_singleton _ _, ?_⟩
    intro a ha b hb
    simp only [List.mem_singleton] at hb
    subst hb
    intro heq
    exact h ((hasKey_iff s (itemKey b)).mpr ⟨a, ha, heq⟩)

theorem ingestSource_unique {cs : List Item} :
    ∀ {store : List Item}, uniqueKeys store → uniqueKeys (ingestSource store cs).1 := by
  induction cs with
  | nil => intro store h; exact h
  | cons c cs ih =>
      intro store h
      exact ih (insertItem_unique h)

theorem ingestSource_mono {cs : List Item} {k : Nat × String} :
    ∀ {store : List Item}, hasKey store k = true →
      hasKey (ingestSource store cs).1 k = true := by
  induction cs with
  | nil => intro store h; exact h
  | cons c cs ih =>
      intro store h
      exact ih (insertItem_mono h)

theorem ingestSource_covers {cs : List Item} :
    ∀ {store : List Item} {c : Item}, c ∈ cs →
      hasKey (ingestSource store cs).1 (itemKey c) = true := by
  induction cs with
  | nil => intro _ _ h; cases h
  | cons d ds ih =>
      intro store c hc
      rcases List.mem_cons.mp hc with h | h
      · rw [h]
        show hasKey (ingestSource (insertItem store d).1 ds).1 (itemKey d) = true
        exact ingestSource_mono (insertItem_covers store d)
      · exact ih h

theorem ingestSource_no_new {cs : List Item} :
    ∀ {store : List Item}, (∀ c ∈ cs, hasKey store (itemKey c) = true) →
      ingestSource store cs = (store, 0) := by
  induction cs with
  | nil => intro store _; rfl
  | cons c ds ih =>
      intro store h
      have hc := insertItem_of_hasKey (h c (List.mem_cons_self c ds))
      have hrest := ih (fun d hd => h d (List.mem_cons_of_mem c hd))
      simp [ingestSource, hc, hrest]

theorem coordinatorRun_unique {srcs : List (FeedType × List Item)} :
    ∀ {store : List Item}, uniqueKeys store →
      uniqueKeys (coordinatorRun store srcs).1 := by
  induction srcs with
  | nil => intro store h; exact h
  | cons s ss ih => intro store h; exact ih (ingestSource_unique h)

theorem coordinatorRun_mono {srcs : List (FeedType × List Item)} {k : Nat × String} :
    ∀ {store : List Item}, hasKey store k = true →
      hasKey (coordinatorRun store srcs).1 k = true := by
  induction srcs with
  | nil => intro store h; exact h
  | cons s ss ih => intro store h; exact ih (ingestSource_mono h)

theorem coordinatorRun_covers {srcs : List (FeedType × List Item)} :
    ∀ {store : List Item} {src : FeedType × List Item} {c : Item},
      src ∈ srcs → c ∈ src.2 →
        hasKey (coordinatorRun store srcs).1 (itemKey c) = true := by
  induction srcs with
  | nil => intro _ _ _ h; cases h
  | cons s ss ih =>
      intro store src c hsrc hc
      rcases List.mem_cons.mp hsrc with h | h
      · rw [h] at hc
        show hasKey (coordinatorRun (ingestSource store s.2).1 ss).1 (itemKey c) = true
        exact coordinatorRun_mono (ingestSource_covers hc)
      · exact ih h hc

theorem coordinatorRun_no_new {srcs : List (FeedType × List Item)} :
    ∀ {store : List Item},
      (∀ src ∈ srcs, ∀ c ∈ src.2, hasKey store (itemKey c) = true) →
        coordinatorRun store srcs = (store, 0) := by
  induction srcs with
  | nil => intro store _; rfl
  | cons s ss ih =>
      intro store h
      have hs := ingestSource_no_new (h s (List.mem_cons_self s ss))
      have hrest := ih (fun src hsrc c hc => h src (List.mem_cons_of_mem s hsrc) c hc)
      simp [coordinatorRun, hs, hrest]

/-- C2: from a store with unique `(source_id, guid)` keys, a coordinator
sweep (over sources of any of the three feed types) preserves key
uniqueness; inserting a candidate whose key already exists is a silent
no-op; and a second sweep over the unchanged sources yields zero new
items. -/
theorem C2_idempotent_dedup (store : List Item)
    (srcs : List (FeedType × List Item)) (h : uniqueKeys store) :
    uniqueKeys (coordinatorRun store srcs).1 ∧
    (∀ c : Item, hasKey store (itemKey c) = true → insertItem store c = (store, false)) ∧
    (coordinatorRun (coordinatorRun store srcs).1 srcs).2 = 0 := by
  refine ⟨coordinatorRun_unique h, fun c hc => insertItem_of_hasKey hc, ?_⟩
  have hcov : ∀ src ∈ srcs, ∀ c ∈ src.2,
      hasKey (coordinatorRun store srcs).1 (itemKey c) = true :=
    fun src hsrc c hc => coordinatorRun_covers hsrc hc
  rw [coordinatorRun_no_new hcov]

/-- Witness for C2 at a concrete store and source list: one RSS source, one
web-scrape source and one Twitter source each contributing one candidate. -/
theorem C2_idempotent_dedup_witness :
    uniqueKeys [Item.mk 1 "a" "t" "u"] ∧
    (coordinatorRun
      (coordinatorRun [Item.mk 1 "a" "t" "u"]
        [(FeedType.rss, [Item.mk 1 "a" "t" "u"]),
         (FeedType.web_scrape, [Item.mk 2 "b" "t2" "u2"]),
         (FeedType.twitter, [Item.mk 3 "c" "t3" "u3"])]).1
      [(FeedType.rss, [Item.mk 1 "a" "t" "u"]),
       (FeedType.web_scrape, [Item.mk 2 "b" "t2" "u2"]),
       (FeedType.twitter, [Item.mk 3 "c" "t3" "u3"])]).2 = 0 := by
  have h : uniqueKeys [Item.mk 1 "a" "t" "u"] := by
    simp [uniqueKeys]
  exact ⟨h, (C2_idempotent_dedup [Item.mk 1 "a" "t" "u"]
    [(FeedType.rss, [Item.mk 1 "a" "t" "u"]),
     (FeedType.web_scrape, [Item.mk 2 "b" "t2" "u2"]),
     (FeedType.twitter, [Item.mk 3 "c" "t3" "u3"])] h).2.2⟩

end CIS

namespace CIS

/-- The publish-relevant state of a content output: its status and the
external document handle, from `src/unnamed/part_020` (`status`,
`google_doc_id`, `google_doc_url`). -/
structure ContentOutputState where
  status : ContentOutputStatus
  google_doc_id : Option String
  google_doc_url : Option String
deriving DecidableEq, Repr

/-- Modelled from the spec: the publish endpoint is not in the sources (only
the front-end caller is).  Publishing is permitted only from `approved`; a
call in any other status — in particular on an already `published` output —
is rejected with a state-violation error and mutates nothing.  From
`approved`, the external publish outcome `ext` decides: on success the
output moves to `published` and stores the returned document id/url; on
failure nothing changes and the underlying error is returned to the caller
(spec sections 4.6 and 4.7). -/
def publishOutput (o : ContentOutputState) (ext : Except String (String × String)) :
    ContentOutputState × Option String :=
  if o.status = ContentOutputStatus.approved then
    match ext with
    | Except.error e => (o, some e)
    | Except.ok d =>
        (⟨ContentOutputStatus.published, some d.1, some d.2⟩, none)
  else
    (o, some "state violation: output is not in approved status")

/-- Shape of the error value inspected by `handlePublish` in
`src/unnamed/part_006`: the code tests `err && typeof err === "object" &&
"response" in err` and then reads `err.response?.data?.detail`; each nested
`Option` level models a possibly-undefined property. -/
inductive JsError
  | nonObject
  | objWithoutResponse
  | objWithResponse (response : Option (Option (Option String)))
deriving DecidableEq, Repr

/-- The message `handlePublish` (`src/unnamed/part_006`) surfaces to the
user: `err.response?.data?.detail ?? "Publish failed"` when the error is an
object with a `response` property, `"Publish failed"` otherwise. -/
def publishErrorMessage : JsError → String
  | JsError.objWithResponse (some (some (some d))) => d
  | _ => "Publish failed"

/-- C3: from `approved`, a successful publish moves the output to
`published` with the external document id/url stored and no error; a second
publish call on the published output is rejected with a state-violation
error and leaves the stored state unchanged, whatever the external outcome;
a failed external publish leaves the output unchanged (still `approved`) and
returns the underlying error, which `handlePublish` surfaces verbatim to the
caller. -/
theorem C3_publish_transitions (o : ContentOutputState) (docId docUrl : String)
    (e2 : Except String (String × String))
    (h : o.status = ContentOutputStatus.approved) :
    publishOutput o (Except.ok (docId, docUrl)) =
      (⟨ContentOutputStatus.published, some docId, some docUrl⟩, none) ∧
    publishOutput ⟨ContentOutputStatus.published, some docId, some docUrl⟩ e2 =
      (⟨ContentOutputStatus.published, some docId, some docUrl⟩,
        some "state violation: output is not in approved status") ∧
    (∀ msg, publishOutput o (Except.error msg) = (o, some msg)) ∧
    (∀ d, publishErrorMessage (JsError.objWithResponse (some (some (some d)))) = d) := by
  refine ⟨?_, ?_, ?_, ?_⟩
  · simp [publishOutput, h]
  · simp [publishOutput]
  · intro msg; simp [publishOutput, h]
  · intro d; rfl

/-- Witness for C3 at a concrete approved output and concrete document
handles. -/
theorem C3_publish_transitions_witness :
    (ContentOutputState.mk ContentOutputStatus.approved none none).status =
      ContentOutputStatus.approved ∧
    publishOutput ⟨ContentOutputStatus.approved, none, none⟩
        (Except.ok ("doc-1", "https://docs/doc-1")) =
      (⟨ContentOutputStatus.published, some "doc-1", some "https://docs/doc-1"⟩, none) ∧
    publishOutput ⟨ContentOutputStatus.published, some "doc-1", some "https://docs/doc-1"⟩
        (Except.ok ("doc-2", "https://docs/doc-2")) =
      (⟨ContentOutputStatus.published, some "doc-1", some "https://docs/doc-1"⟩,
        some "state violation: output is not in approved status") :=
  ⟨rfl,
    (C3_publish_transitions ⟨ContentOutputStatus.approved, none, none⟩
      "doc-1" "https://docs/doc-1" (Except.ok ("doc-2", "https://docs/doc-2")) rfl).1,
    (C3_publish_transitions ⟨ContentOutputStatus.approved, none, none⟩
      "doc-1" "https://docs/doc-1" (Except.ok ("doc-2", "https://docs/doc-2")) rfl).2.1⟩

end CIS

namespace CIS

/-- The orchestrator-relevant state of a check run, from
`src/frontend/src/types/check-run.ts` (`status`, `analysis_status`,
`completed_at`; timestamps as natural numbers). -/
structure RunState where
  status : CheckRunStatus
  analysis_status : Option AnalysisStatus
  completed_at : Option Nat
deriving DecidableEq, Repr

/-- Outcome of the synchronous ingestion half of a check run: either the
number of new relevant items, or an unrecoverable persistence error. -/
inductive IngestOutcome
  | ok (newRelevantItems : Nat)
  | persistenceError (msg : String)
deriving DecidableEq, Repr

/-- Modelled from the spec: the Check-Run Orchestrator is not in the sources
(only the `CheckRun` type and the history view are).  When ingestion
finishes, the run is stamped `completed_at` and `status = completed`
immediately — if any new relevant items resulted, the analysis stage is
kicked off asynchronously and `analysis_status` is set to `pending` without
waiting for it; a persistence error instead ends the run as `failed`
(spec section 4.4). -/
def finishRun (outcome : IngestOutcome) (now : Nat) : RunState :=
  match outcome with
  | IngestOutcome.persistenceError _ => ⟨CheckRunStatus.failed, none, some now⟩
  | IngestOutcome.ok n =>
      ⟨CheckRunStatus.completed,
        if 0 < n then some AnalysisStatus.pending else none,
        some now⟩

/-- Modelled from the spec: the asynchronous analysis stage completing all
pending items of a run flips that run's `analysis_status` from `pending` to
`complete`; it touches nothing else (spec section 4.5). -/
def analysisStep (s : RunState) : RunState :=
  if s.analysis_status = some AnalysisStatus.pending then
    { s with analysis_status := some AnalysisStatus.complete }
  else s

theorem analysisStep_status (s : RunState) : (analysisStep s).status = s.status := by
  unfold analysisStep
  split <;> rfl

theorem analysisStep_iterate_status (k : Nat) (s : RunState) :
    (analysisStep^[k] s).status = s.status := by
  induction k generalizing s with
  | zero => rfl
  | succ k ih =>
      rw [Function.iterate_succ_apply]
      rw [ih (analysisStep s), analysisStep_status]

/-- C4: finishing ingestion with new relevant items yields `status =
completed`, `analysis_status = pending` and a `completed_at` stamp, before
any analysis work happens; the analysis step moves `analysis_status` only
from `pending` to `complete` and never backward; and however many analysis
steps follow, the run's status stays in the terminal set
`{completed, failed}`. -/
theorem C4_run_lifecycle (outcome : IngestOutcome) (now k n : Nat)
    (hn : 0 < n) :
    finishRun (IngestOutcome.ok n) now =
      ⟨CheckRunStatus.completed, some AnalysisStatus.pending, some now⟩ ∧
    (∀ s : RunState, s.analysis_status = some AnalysisStatus.complete →
        (analysisStep s).analysis_status = some AnalysisStatus.complete) ∧
    (∀ s : RunState, (analysisStep s).analysis_status ≠ s.analysis_status →
        s.analysis_status = some AnalysisStatus.pending ∧
        (analysisStep s).analysis_status = some AnalysisStatus.complete) ∧
    (∀ s : RunState, (analysisStep s).status = s.status) ∧
    ((analysisStep^[k] (finishRun outcome now)).status = CheckRunStatus.completed ∨
     (analysisStep^[k] (finishRun outcome now)).status = CheckRunStatus.failed) := by
  refine ⟨?_, ?_, ?_, analysisStep_status, ?_⟩
  · simp [finishRun, hn]
  · intro s hs
    simp [analysisStep, hs]
  · intro s hs
    unfold analysisStep at hs ⊢
    by_cases h : s.analysis_status = some AnalysisStatus.pending
    · simp [h]
    · simp [h] at hs
  · rw [analysisStep_iterate_status]
    cases outcome with
    | ok m => left; rfl
    | persistenceError msg => right; rfl

/-- Witness for C4 at a concrete run: one new relevant item, two analysis
steps. -/
theorem C4_run_lifecycle_witness :
    (0 < 1) ∧
    finishRun (IngestOutcome.ok 1) 5 =
      ⟨CheckRunStatus.completed, some AnalysisStatus.pending, some 5⟩ ∧
    ((analysisStep^[2] (finishRun (IngestOutcome.ok 1) 5)).status =
        CheckRunStatus.completed ∨
     (analysisStep^[2] (finishRun (IngestOutcome.ok 1) 5)).status =
        CheckRunStatus.failed) :=
  ⟨by decide,
    (C4_run_lifecycle (IngestOutcome.ok 1) 5 2 1 (by decide)).1,
    (C4_run_lifecycle (IngestOutcome.ok 1) 5 2 1 (by decide)).2.2.2.2⟩

end CIS

namespace CIS

/-- Editability of a content output's content, from `src/unnamed/part_006`
(`ContentOutputDetail`): `output?.status === "draft" || output?.status ===
"in_review"`; the section textareas and the save button are rendered only
when this holds. -/
def contentOutputIsEditable (s : ContentOutputStatus) : Bool :=
  decide (s = ContentOutputStatus.draft) || decide (s = ContentOutputStatus.in_review)

/-- Editability of an analysis card's content fields in `CardDetail`
(`src/unnamed/part_004`): the title input and the summary, impact-assessment
and counter-moves textareas are rendered with active `onChange` handlers
unconditionally, and the save button is disabled only while the update
mutation is in flight — there is no status-based guard, so the fields are
editable whatever the card's status. -/
def cardDetailFieldsEditable (_s : CardStatus) : Bool :=
  true

/-- C5: evaluation of the editability guards.  The content-output component
does restrict editing to `draft`/`in_review`, but the card component leaves
content fields editable even for an `archived` card, contradicting the
claimed component-enforced guard. -/
theorem C5_editability_guards :
    cardDetailFieldsEditable CardStatus.archived = true ∧
    (∀ s : ContentOutputStatus,
        contentOutputIsEditable s = true ↔
          (s = ContentOutputStatus.draft ∨ s = ContentOutputStatus.in_review)) := by
  exact ⟨rfl, by decide⟩

end CIS

namespace CIS

/-- A JavaScript number as relevant to the backfill-days input: `NaN`, the
two infinities, or a finite value (rationals stand in for finite doubles). -/
inductive JsNumber
  | nan
  | posInf
  | negInf
  | finite (q : ℚ)
deriving DecidableEq, Repr

/-- JavaScript truthiness of a number: `NaN`, `0` and `-0` are falsy, every
other number is truthy. -/
def jsTruthy : JsNumber → Bool
  | JsNumber.nan => false
  | JsNumber.finite q => decide (q ≠ 0)
  | _ => true

/-- The JavaScript `a || b` operator on numbers: `b` when `a` is falsy. -/
def jsOrElse (a b : JsNumber) : JsNumber :=
  if jsTruthy a then a else b

/-- JavaScript `Math.min` on two numbers: `NaN` is absorbing, `-Infinity`
dominates, `Infinity` is neutral. -/
def jsMin : JsNumber → JsNumber → JsNumber
  | JsNumber.nan, _ => JsNumber.nan
  | _, JsNumber.nan => JsNumber.nan
  | JsNumber.negInf, _ => JsNumber.negInf
  | _, JsNumber.negInf => JsNumber.negInf
  | JsNumber.posInf, b => b
  | a, JsNumber.posInf => a
  | JsNumber.finite a, JsNumber.finite b => JsNumber.finite (min a b)

/-- JavaScript `Math.max` on two numbers: `NaN` is absorbing, `Infinity`
dominates, `-Infinity` is neutral. -/
def jsMax : JsNumber → JsNumber → JsNumber
  | JsNumber.nan, _ => JsNumber.nan
  | _, JsNumber.nan => JsNumber.nan
  | JsNumber.posInf, _ => JsNumber.posInf
  | _, JsNumber.posInf => JsNumber.posInf
  | JsNumber.negInf, b => b
  | a, JsNumber.negInf => a
  | JsNumber.finite a, JsNumber.finite b => JsNumber.finite (max a b)

/-- The value stored by the initial-backfill-days input of `FeedFormDialog`
(`src/frontend/src/pages/Login.tsx`):
`Math.max(1, Math.min(90, Number(e.target.value) || 30))`, where `n` is the
`Number(...)` conversion of the entered string. -/
def backfillDaysStored (n : JsNumber) : JsNumber :=
  jsMax (JsNumber.finite 1) (jsMin (JsNumber.finite 90) (jsOrElse n (JsNumber.finite 30)))

theorem backfillDaysStored_falsy {n : JsNumber} (h : jsTruthy n = false) :
    backfillDaysStored n = JsNumber.finite 30 := by
  cases n with
  | nan => norm_num [backfillDaysStored, jsOrElse, jsTruthy, jsMin, jsMax]
  | posInf => simp [jsTruthy] at h
  | negInf => simp [jsTruthy] at h
  | finite q =>
      have hq : q = 0 := by simpa [jsTruthy] using h
      subst hq
      norm_num [backfillDaysStored, jsOrElse, jsTruthy, jsMin, jsMax]

theorem backfillDaysStored_finite {q : ℚ} (hq : q ≠ 0) :
    backfillDaysStored (JsNumber.finite q) = JsNumber.finite (max 1 (min 90 q)) := by
  simp [backfillDaysStored, jsOrElse, jsTruthy, hq, jsMin, jsMax]

theorem backfillDaysStored_posInf :
    backfillDaysStored JsNumber.posInf = JsNumber.finite 90 := by
  norm_num [backfillDaysStored, jsOrElse, jsTruthy, jsMin, jsMax]

theorem backfillDaysStored_negInf :
    backfillDaysStored JsNumber.negInf = JsNumber.finite 1 := by
  norm_num [backfillDaysStored, jsOrElse, jsTruthy, jsMin, jsMax]

theorem backfillDaysStored_in_range (n : JsNumber) :
    ∃ q : ℚ, backfillDaysStored n = JsNumber.finite q ∧ 1 ≤ q ∧ q ≤ 90 := by
  by_cases ht : jsTruthy n = true
  · cases n with
    | nan => simp [jsTruthy] at ht
    | posInf => exact ⟨90, backfillDaysStored_posInf, by norm_num, by norm_num⟩
    | negInf => exact ⟨1, backfillDaysStored_negInf, by norm_num, by norm_num⟩
    | finite q =>
        have hq : q ≠ 0 := by simpa [jsTruthy] using ht
        refine ⟨max 1 (min 90 q), backfillDaysStored_finite hq, le_max_left _ _, ?_⟩
        exact max_le (by norm_num) (min_le_left _ _)
  · have h : jsTruthy n = false := by
      cases hv : jsTruthy n
      · rfl
      · exact absurd hv ht
    exact ⟨30, backfillDaysStored_falsy h, by norm_num, by norm_num⟩

end CIS

namespace CIS

/-- C9: the stored initial-backfill-days value is always a finite number in
[1, 90]; a falsy conversion (empty input, non-numeric input, or zero) stores
the default 30; a nonzero finite input n stores max(1, min(90, n)); the
infinite inputs clamp to the respective bound. -/
theorem C9_backfill_input_clamp (n : JsNumber) :
    (∃ q : ℚ, backfillDaysStored n = JsNumber.finite q ∧ 1 ≤ q ∧ q ≤ 90) ∧
    (jsTruthy n = false → backfillDaysStored n = JsNumber.finite 30) ∧
    (∀ q : ℚ, q ≠ 0 → n = JsNumber.finite q →
        backfillDaysStored n = JsNumber.finite (max 1 (min 90 q))) ∧
    (n = JsNumber.posInf → backfillDaysStored n = JsNumber.finite 90) ∧
    (n = JsNumber.negInf → backfillDaysStored n = JsNumber.finite 1) := by
  refine ⟨backfillDaysStored_in_range n, backfillDaysStored_falsy, ?_, ?_, ?_⟩
  · intro q hq hn
    rw [hn]
    exact backfillDaysStored_finite hq
  · intro hn; rw [hn]; exact backfillDaysStored_posInf
  · intro hn; rw [hn]; exact backfillDaysStored_negInf

/-- Witness for C9 at the concrete nonzero input 200, which clamps to 90. -/
theorem C9_backfill_input_clamp_witness :
    ((200 : ℚ) ≠ 0) ∧ backfillDaysStored (JsNumber.finite 200) = JsNumber.finite 90 := by
  refine ⟨by norm_num, ?_⟩
  have h := (C9_backfill_input_clamp (JsNumber.finite 200)).2.2.1 200 (by norm_num) rfl
  rw [h]
  norm_num

/-- The `handleRebackfill` flow in `FeedRow`
(`src/frontend/src/pages/Login.tsx`): the prompt result may be null
(cancelled) or a string; a falsy (empty) string aborts; `parseInt(days, 10)`
is the host conversion, abstracted as `parseIntFn` with `none` for `NaN`;
a parsed value below 1 or above 90 aborts; otherwise the value is submitted. -/
def rebackfillSubmission (parseIntFn : String → Option Int)
    (promptResult : Option String) : Option Int :=
  match promptResult with
  | none => none
  | some s =>
      if s = "" then none
      else
        match parseIntFn s with
        | none => none
        | some n => if n < 1 ∨ 90 < n then none else some n

/-- C6: the backfill day count always lies within 1 to 90 — the creation
form clamps every entered number into the range, and the re-backfill handler
submits only values in the range, refusing NaN, values below 1 and values
above 90 (and submitting an in-range parse unchanged). -/
theorem C6_backfill_day_bounds :
    (∀ n : JsNumber, ∃ q : ℚ,
        backfillDaysStored n = JsNumber.finite q ∧ 1 ≤ q ∧ q ≤ 90) ∧
    (∀ (f : String → Option Int) (p : Option String) (n : Int),
        rebackfillSubmission f p = some n → 1 ≤ n ∧ n ≤ 90) ∧
    (∀ (f : String → Option Int) (s : String),
        f s = none → rebackfillSubmission f (some s) = none) ∧
    (∀ (f : String → Option Int) (s : String) (n : Int),
        f s = some n → (n < 1 ∨ 90 < n) →
          rebackfillSubmission f (some s) = none) ∧
    (∀ (f : String → Option Int) (s : String) (n : Int),
        s ≠ "" → f s = some n → 1 ≤ n → n ≤ 90 →
          rebackfillSubmission f (some s) = some n) := by
  refine ⟨backfillDaysStored_in_range, ?_, ?_, ?_, ?_⟩
  · intro f p n h
    match p with
    | none => simp [rebackfillSubmission] at h
    | some s =>
        by_cases hs : s = ""
        · simp [rebackfillSubmission, hs] at h
        · cases hf : f s with
          | none => simp [rebackfillSubmission, hs, hf] at h
          | some m =>
              by_cases hg : m < 1 ∨ 90 < m
              · simp [rebackfillSubmission, hs, hf, hg] at h
              · have hmn : m = n := by
                  simpa [rebackfillSubmission, hs, hf, hg] using h
                subst hmn
                omega
  · intro f s hf
    by_cases hs : s = "" <;> simp [rebackfillSubmission, hs, hf]
  · intro f s n hf hout
    by_cases hs : s = "" <;> simp [rebackfillSubmission, hs, hf, hout]
  · intro f s n hs hf h1 h90
    have hguard : ¬ (n < 1 ∨ 90 < n) := by omega
    simp [rebackfillSubmission, hs, hf, hguard]

/-- Witness for C6: a prompt answer parsing to 200 is refused, one parsing
to 45 is submitted. -/
theorem C6_backfill_day_bounds_witness :
    ((fun _ : String => some (200 : Int)) "200" = some 200) ∧
    ((200 : Int) < 1 ∨ (90 : Int) < 200) ∧
    rebackfillSubmission (fun _ => some (200 : Int)) (some "200") = none ∧
    ("45" ≠ "") ∧
    rebackfillSubmission (fun _ => some (45 : Int)) (some "45") = some 45 :=
  ⟨rfl, Or.inr (by decide),
    C6_backfill_day_bounds.2.2.2.1 (fun _ => some (200 : Int)) "200" 200 rfl
      (Or.inr (by decide)),
    by decide,
    C6_backfill_day_bounds.2.2.2.2 (fun _ => some (45 : Int)) "45" 45 (by decide) rfl
      (by decide) (by decide)⟩

end CIS

namespace CIS

/-- Result of the validate-username operation, from `src/unnamed/part_008`
(`TwitterValidationResult`). -/
structure TwitterValidationResult where
  valid : Bool
  user_id : String
  username : String
  name : String
  profile_image_url : String
  description : String
  followers_count : Nat
  tweet_count : Nat
  error : Option String
deriving DecidableEq, Repr

/-- The `FeedFormDialog` state relevant to submission
(`src/frontend/src/pages/Login.tsx`): edit/create mode, pending-save flag,
the text fields, the selected feed type, the Twitter validation result (set
only after a successful validation), the clamped backfill-days value, the
retweet/reply toggles, and the edited feed's stored `x_user_id` when in
edit mode. -/
structure FeedFormState where
  isEdit : Bool
  isSaving : Bool
  name : String
  url : String
  feedType : FeedType
  cssSelector : String
  competitorId : String
  twitterUsername : String
  twitterProfile : Option TwitterValidationResult
  backfillDays : ℚ
  includeRetweets : Bool
  includeReplies : Bool
  feedXUserId : Option String
deriving DecidableEq, Repr

/-- The create/save button gate of `FeedFormDialog`
(`src/frontend/src/pages/Login.tsx`):
`isSaving || (isTwitter && !isEdit && !twitterProfile)`. -/
def isCreateDisabled (st : FeedFormState) : Bool :=
  st.isSaving ||
    (decide (st.feedType = FeedType.twitter) && !st.isEdit && st.twitterProfile.isNone)

/-- The state produced by `handleValidateTwitter`
(`src/frontend/src/pages/Login.tsx`) from a validation response: a valid
response stores the profile and no error; an invalid one stores no profile
and the error message `result.error ?? "Username not found."`. -/
def validateTwitterOutcome (r : TwitterValidationResult) :
    Option TwitterValidationResult × Option String :=
  if r.valid then (some r, none) else (none, some (r.error.getD "Username not found."))

/-- C7: with feed type twitter, in create mode and with no successful
validation result, the Create action is disabled; and an invalid validation
response yields no profile (so creation stays disabled) together with a
not-found error message. -/
theorem C7_twitter_validation_gate :
    (∀ st : FeedFormState, st.feedType = FeedType.twitter → st.isEdit = false →
        st.twitterProfile = none → isCreateDisabled st = true) ∧
    (∀ r : TwitterValidationResult, r.valid = false →
        validateTwitterOutcome r = (none, some (r.error.getD "Username not found."))) := by
  constructor
  · intro st hft he hp
    simp [isCreateDisabled, hft, he, hp]
  · intro r hr
    simp [validateTwitterOutcome, hr]

/-- Witness for C7 at a concrete twitter-create form state with no
validation result, and a concrete invalid validation response without a
server-provided error string. -/
theorem C7_twitter_validation_gate_witness :
    ((FeedFormState.mk false false "Acme" "" FeedType.twitter "" "" "@acme"
        none 30 false false none).feedType = FeedType.twitter) ∧
    isCreateDisabled
      (FeedFormState.mk false false "Acme" "" FeedType.twitter "" "" "@acme"
        none 30 false false none) = true ∧
    validateTwitterOutcome
      (TwitterValidationResult.mk false "" "" "" "" "" 0 0 none) =
        (none, some "Username not found.") :=
  ⟨rfl,
    C7_twitter_validation_gate.1
      (FeedFormState.mk false false "Acme" "" FeedType.twitter "" "" "@acme"
        none 30 false false none) rfl rfl rfl,
    C7_twitter_validation_gate.2
      (TwitterValidationResult.mk false "" "" "" "" "" 0 0 none) rfl⟩

end CIS

namespace CIS

/-- The username normalisation in `handleSubmit`
(`src/frontend/src/pages/Login.tsx`): `twitterUsername.replace(/^@/, "")`,
which removes a single leading `@` if present. -/
def stripLeadingAt (s : String) : String :=
  if s.startsWith "@" then s.drop 1 else s

/-- A feed create/update payload as submitted by `handleSubmit`
(`src/frontend/src/pages/Login.tsx`).  The outer `Option` on each field
models whether the key is present in the submitted object at all; for
`css_selector` and `competitor_id` the inner `Option` models an explicit
`null` value (`cssSelector || null`, `competitorId || null`), and for
`x_user_id` it models an undefined value when neither the validated profile
nor the edited feed has one. -/
structure FeedPayload where
  name : Option String
  url : Option String
  feed_type : Option FeedType
  css_selector : Option (Option String)
  competitor_id : Option (Option String)
  x_username : Option String
  x_user_id : Option (Option String)
  include_retweets : Option Bool
  include_replies : Option Bool
  initial_backfill_days : Option ℚ
deriving DecidableEq, Repr

/-- The payload built by `handleSubmit` (`src/frontend/src/pages/Login.tsx`):
the twitter branch submits an empty `url`, no `css_selector` key, the
`@`-stripped username, the user id from the validated profile falling back
to the edited feed's stored id, the retweet/reply flags, and — on creation
only — `initial_backfill_days`; the non-twitter branch submits the url and
`css_selector` and none of the twitter fields. -/
def handleSubmitPayload (st : FeedFormState) : FeedPayload :=
  if st.feedType = FeedType.twitter then
    { name := some st.name
      url := some ""
      feed_type := some FeedType.twitter
      css_selector := none
      competitor_id := some (if st.competitorId = "" then none else some st.competitorId)
      x_username := some (stripLeadingAt st.twitterUsername)
      x_user_id := some ((st.twitterProfile.map fun r => r.user_id).orElse fun _ => st.feedXUserId)
      include_retweets := some st.includeRetweets
      include_replies := some st.includeReplies
      initial_backfill_days := if st.isEdit then none else some st.backfillDays }
  else
    { name := some st.name
      url := some st.url
      feed_type := some st.feedType
      css_selector := some (if st.cssSelector = "" then none else some st.cssSelector)
      competitor_id := some (if st.competitorId = "" then none else some st.competitorId)
      x_username := none
      x_user_id := none
      include_retweets := none
      include_replies := none
      initial_backfill_days := none }

/-- C8: every twitter submission — create or update — carries an empty URL
and no `css_selector` key, only the twitter-specific fields: the
`@`-stripped username, the resolved user id, the retweet/reply flags, and
the initial backfill days exactly when creating. -/
theorem C8_twitter_payload_exclusive (st : FeedFormState)
    (h : st.feedType = FeedType.twitter) :
    (handleSubmitPayload st).url = some "" ∧
    (handleSubmitPayload st).css_selector = none ∧
    (handleSubmitPayload st).feed_type = some FeedType.twitter ∧
    (handleSubmitPayload st).x_username = some (stripLeadingAt st.twitterUsername) ∧
    (handleSubmitPayload st).x_user_id =
      some ((st.twitterProfile.map fun r => r.user_id).orElse fun _ => st.feedXUserId) ∧
    (handleSubmitPayload st).include_retweets = some st.includeRetweets ∧
    (handleSubmitPayload st).include_replies = some st.includeReplies ∧
    (st.isEdit = false →
        (handleSubmitPayload st).initial_backfill_days = some st.backfillDays) ∧
    (st.isEdit = true →
        (handleSubmitPayload st).initial_backfill_days = none) := by
  refine ⟨?_, ?_, ?_, ?_, ?_, ?_, ?_, ?_, ?_⟩
  · simp [handleSubmitPayload, h]
  · simp [handleSubmitPayload, h]
  · simp [handleSubmitPayload, h]
  · simp [handleSubmitPayload, h]
  · simp [handleSubmitPayload, h]
  · simp [handleSubmitPayload, h]
  · simp [handleSubmitPayload, h]
  · intro he; simp [handleSubmitPayload, h, he]
  · intro he; simp [handleSubmitPayload, h, he]

/-- Witness for C8 at a concrete twitter-create form state with username
`@acme`. -/
theorem C8_twitter_payload_exclusive_witness :
    ((FeedFormState.mk false false "Acme" "https://ignored" FeedType.twitter
        "div.post" "" "@acme" none 30 true false none).feedType =
      FeedType.twitter) ∧
    (handleSubmitPayload
      (FeedFormState.mk false false "Acme" "https://ignored" FeedType.twitter
        "div.post" "" "@acme" none 30 true false none)).url = some "" ∧
    (handleSubmitPayload
      (FeedFormState.mk false false "Acme" "https://ignored" FeedType.twitter
        "div.post" "" "@acme" none 30 true false none)).css_selector = none ∧
    (handleSubmitPayload
      (FeedFormState.mk false false "Acme" "https://ignored" FeedType.twitter
        "div.post" "" "@acme" none 30 true false none)).x_username =
      some (stripLeadingAt "@acme") ∧
    (handleSubmitPayload
      (FeedFormState.mk false false "Acme" "https://ignored" FeedType.twitter
        "div.post" "" "@acme" none 30 true false none)).initial_backfill_days =
      some 30 :=
  ⟨rfl,
    (C8_twitter_payload_exclusive
      (FeedFormState.mk false false "Acme" "https://ignored" FeedType.twitter
        "div.post" "" "@acme" none 30 true false none) rfl).1,
    (C8_twitter_payload_exclusive
      (FeedFormState.mk false false "Acme" "https://ignored" FeedType.twitter
        "div.post" "" "@acme" none 30 true false none) rfl).2.1,
    (C8_twitter_payload_exclusive
      (FeedFormState.mk false false "Acme" "https://ignored" FeedType.twitter
        "div.post" "" "@acme" none 30 true false none) rfl).2.2.2.1,
    (C8_twitter_payload_exclusive
      (FeedFormState.mk false false "Acme" "https://ignored" FeedType.twitter
        "div.post" "" "@acme" none 30 true false none) rfl).2.2.2.2.2.2.2.1 rfl⟩

end CIS

namespace CIS

/-- A JavaScript value as produced by `JSON.parse`: null, booleans, finite
numbers (rationals stand in for doubles), strings, arrays and objects
(objects as their post-parse entry list, keys already deduplicated). -/
inductive JsValue
  | null
  | bool (b : Bool)
  | num (q : ℚ)
  | str (s : String)
  | arr (elems : List JsValue)
  | obj (entries : List (String × JsValue))

/-- Whether a value is JavaScript `null`. -/
def isNullV : JsValue → Bool
  | JsValue.null => true
  | _ => false

/-- Whether a value is an array or an object (the two branches
`Array.isArray(parsed)` and `typeof parsed === "object" && parsed !== null`
of `parseSections` distinguish). -/
def isArrOrObj : JsValue → Bool
  | JsValue.arr _ => true
  | JsValue.obj _ => true
  | _ => false

/-- JavaScript truthiness of a value: null, false, 0 and the empty string
are falsy; every array and object is truthy. -/
def jsTruthyV : JsValue → Bool
  | JsValue.null => false
  | JsValue.bool b => b
  | JsValue.num q => decide (q ≠ 0)
  | JsValue.str s => decide (s ≠ "")
  | JsValue.arr _ => true
  | JsValue.obj _ => true

/-- First entry of an object whose key matches (keys are unique after
`JSON.parse`). -/
def lookupEntry : List (String × JsValue) → String → Option JsValue
  | [], _ => none
  | e :: es, k => if e.1 = k then some e.2 else lookupEntry es k

/-- JavaScript property access `v[k]` on a parsed value: a field of an
object, `undefined` (`none`) on every non-null primitive and on arrays. -/
def jsGetField : JsValue → String → Option JsValue
  | JsValue.obj es, k => lookupEntry es k
  | _, _ => none

/-- The JavaScript chain `a || b || default` over possibly-undefined
values: the first present and truthy value, else the default. -/
def pickTruthy : List (Option JsValue) → JsValue → JsValue
  | [], d => d
  | none :: rest, d => pickTruthy rest d
  | some v :: rest, d => if jsTruthyV v then v else pickTruthy rest d

/-- One section of the content-output detail view.  Titles and contents are
kept as raw JavaScript values: the TypeScript annotation says `string`, but
at runtime `s.title || s.heading || "Section"` passes through whatever value
the JSON held. -/
structure DocSection where
  title : JsValue
  content : JsValue

/-- The per-element mapping of the array branch of `parseSections`
(`src/unnamed/part_006`): `title: s.title || s.heading || "Section"`,
`content: s.content || s.body || ""`. -/
def elemToSection (v : JsValue) : DocSection :=
  { title := pickTruthy [jsGetField v "title", jsGetField v "heading"] (JsValue.str "Section")
    content := pickTruthy [jsGetField v "content", jsGetField v "body"] (JsValue.str "") }

/-- The per-entry mapping of the object branch of `parseSections`
(`src/unnamed/part_006`): `title: key`, `content: typeof value === "string"
? value : JSON.stringify(value, null, 2)`, with the host `JSON.stringify`
abstracted as the `stringify` parameter. -/
def entryToSection (stringify : JsValue → String) (e : String × JsValue) : DocSection :=
  { title := JsValue.str e.1
    content :=
      match e.2 with
      | JsValue.str s => JsValue.str s
      | v => JsValue.str (stringify v) }

/-- The `parseSections` helper of `ContentOutputDetail`
(`src/unnamed/part_006`).  The host `JSON.parse(content)` is abstracted as
`parseResult` (`none` when it throws) and `JSON.stringify(·, null, 2)` as
`stringify`.  An array maps to one section per element — unless some element
is `null`, in which case the property access `s.title` inside the `map`
throws a TypeError that the surrounding `try` catches, falling through to
the plain-text fallback; an object maps to one section per key; everything
else falls through to the single section titled `"Content"` holding the
original string. -/
def parseSections (stringify : JsValue → String) (parseResult : Option JsValue)
    (content : String) : List DocSection :=
  match parseResult with
  | some (JsValue.arr xs) =>
      if xs.any isNullV then [⟨JsValue.str "Content", JsValue.str content⟩]
      else xs.map elemToSection
  | some (JsValue.obj es) => es.map (entryToSection stringify)
  | _ => [⟨JsValue.str "Content", JsValue.str content⟩]

/-- C10 counterexample: on the content string `"[]"` — whose `JSON.parse`
result is the empty array — `parseSections` returns the empty list, so it
does not always return a non-empty list. -/
theorem C10_parse_sections_empty_array :
    parseSections (fun _ => "") (some (JsValue.arr [])) "[]" = ([] : List DocSection) := rfl

/-- C10 amended: `parseSections` is total; a parse failure or a
non-array-non-object value yields the single `"Content"` section holding the
original string; an array containing `null` also falls back to that single
section (the map throws and is caught); an array without `null` elements
maps to one section per element with the title/content fallback chains; an
object maps to one section per key, titled by the key; and the result is
empty exactly for the empty array and the empty object. -/
theorem C10_parse_sections_shape (f : JsValue → String) (c : String) :
    parseSections f none c = [⟨JsValue.str "Content", JsValue.str c⟩] ∧
    (∀ v : JsValue, isArrOrObj v = false →
        parseSections f (some v) c = [⟨JsValue.str "Content", JsValue.str c⟩]) ∧
    (∀ xs : List JsValue, xs.any isNullV = true →
        parseSections f (some (JsValue.arr xs)) c =
          [⟨JsValue.str "Content", JsValue.str c⟩]) ∧
    (∀ xs : List JsValue, xs.any isNullV = false →
        parseSections f (some (JsValue.arr xs)) c = xs.map elemToSection ∧
        (parseSections f (some (JsValue.arr xs)) c).length = xs.length) ∧
    (∀ es : List (String × JsValue),
        parseSections f (some (JsValue.obj es)) c = es.map (entryToSection f) ∧
        (parseSections f (some (JsValue.obj es)) c).map (fun sec => sec.title) =
          es.map (fun e => JsValue.str e.1)) ∧
    (∀ r : Option JsValue, parseSections f r c = [] →
        r = some (JsValue.arr []) ∨ r = some (JsValue.obj [])) := by
  refine ⟨rfl, ?_, ?_, ?_, ?_, ?_⟩
  · intro v hv
    cases v with
    | null => rfl
    | bool b => rfl
    | num q => rfl
    | str s => rfl
    | arr xs => simp [isArrOrObj] at hv
    | obj es => simp [isArrOrObj] at hv
  · intro xs hxs
    simp [parseSections, hxs]
  · intro xs hxs
    refine ⟨by simp [parseSections, hxs], by simp [parseSections, hxs]⟩
  · intro es
    refine ⟨rfl, ?_⟩
    show (es.map (entryToSection f)).map (fun sec => sec.title) = _
    rw [List.map_map]
    rfl
  · intro r h
    cases r with
    | none => simp [parseSections] at h
    | some v =>
        cases v with
        | null => simp [parseSections] at h
        | bool b => simp [parseSections] at h
        | num q => simp [parseSections] at h
        | str s => simp [parseSections] at h
        | arr xs =>
            by_cases hn : xs.any isNullV = true
            · simp [parseSections, hn] at h
            · have hn2 : xs.any isNullV = false := by
                cases hv : xs.any isNullV
                · rfl
                · exact absurd hv hn
              have hmap : xs.map elemToSection = [] := by
                rw [show parseSections f (some (JsValue.arr xs)) c =
                    xs.map elemToSection from by simp [parseSections, hn2]] at h
                exact h
              have hx : xs = [] := List.map_eq_nil_iff.mp hmap
              left; rw [hx]
        | obj es =>
            have hmap : es.map (entryToSection f) = [] := h
            have hx : es = [] := List.map_eq_nil_iff.mp hmap
            right; rw [hx]

/-- Witness for C10 amended at concrete inputs: a one-element array yields
one section, and a parsed number falls back to the single content section. -/
theorem C10_parse_sections_shape_witness :
    ([JsValue.str "a"].any isNullV = false) ∧
    parseSections (fun _ => "") (some (JsValue.arr [JsValue.str "a"])) "x" =
      [JsValue.str "a"].map elemToSection ∧
    (isArrOrObj (JsValue.num 5) = false) ∧
    parseSections (fun _ => "") (some (JsValue.num 5)) "x" =
      [⟨JsValue.str "Content", JsValue.str "x"⟩] :=
  ⟨rfl,
    ((C10_parse_sections_shape (fun _ => "") "x").2.2.2.1 [JsValue.str "a"] rfl).1,
    rfl,
    (C10_parse_sections_shape (fun _ => "") "x").2.1 (JsValue.num 5) rfl⟩

end CIS
